import Mathlib

/-!
Verification development for the GALES annotation viewer
(`bin/view_annotation.py`).  The file embeds the four computational
functions of the script — `generate_fasta_stats`, `generate_gff_stats`,
`map_to_slim`, `parse_go_terms_from_gff` — together with the caching
control flow of `main`, and proves the specified properties about them.

Embedding conventions:
* Python dicts become association lists (`List (String × α)`); iteration
  follows list order, mirroring Python dict insertion order.
* Python code that can raise becomes `Except`: the `ZeroDivisionError`
  raised on an empty input maps to the spec taxonomy `EmptyInputError`,
  the `IndexError` on `gene.locations[0]` to `missingLocation`, the
  `AttributeError` on a `None` annotation to `noneAnnotation`.
* Python float formatting `"\x7b0:.1f\x7d"` of a quotient is modelled
  with exact integer-fraction arithmetic and round-half-to-even to one
  decimal place; the claims proved here do not depend on binary
  floating-point artifacts.
-/

/-! ## Python string primitives -/

/-- Test whether `needle` occurs at the start of `hay` (character lists). -/
def charsStartWith : List Char → List Char → Bool
  | _, [] => true
  | [], _ :: _ => false
  | a :: as, b :: bs => a == b && charsStartWith as bs

/-- Test whether `needle` occurs contiguously anywhere in `hay`:
the embedding of Python `needle in hay` on strings. -/
def charsContain : List Char → List Char → Bool
  | [], needle => needle.isEmpty
  | h :: t, needle => charsStartWith (h :: t) needle || charsContain t needle

/-- Python `needle in hay` for strings. -/
def pyIn (needle hay : String) : Bool :=
  charsContain hay.toList needle.toList

/-- Round the exact fraction `num / den` (with `den > 0`) to the
nearest integer, ties to even (the rounding used by Python float
formatting).  `f` is the floor of the fraction and `r2` is twice the
remainder, compared against `den` to locate the half-way point. -/
def roundHalfEven (num den : Int) : Int :=
  let f := Int.fdiv num den
  let r2 := 2 * (num - den * f)
  if r2 < den then f
  else if den < r2 then f + 1
  else if f % 2 = 0 then f else f + 1

/-- Format the exact fraction `num / den` with exactly one decimal
digit, the embedding of Python format spec `.1f` (the value formatted
by the source is always a quotient of integers). -/
def format1 (num den : Int) : String :=
  let scaled := roundHalfEven (num * 10) den
  let n := scaled.natAbs
  let sign := if scaled < 0 then "-" else ""
  sign ++ toString (n / 10) ++ "." ++ toString (n % 10)

/-! ## generate_fasta_stats (lines 109-137) -/

/-- Result record written by `generate_fasta_stats`.  Keys that are set
only later in the function body are `Option`s (`none` = key absent). -/
structure FastaStats where
  success : Nat
  stats_assembly_count : Nat
  stats_assembly_sum_length : Nat
  stats_assembly_longest_length : Option Nat
  stats_assembly_shortest_length : Option Nat
  stats_assembly_gc : Option String
deriving DecidableEq, Repr

/-- Error raised by `generate_fasta_stats` on an empty sequence set
(spec taxonomy `EmptyInputError`; in the source a `ZeroDivisionError`
at line 133).  It carries the result record as it stood when the
division was attempted. -/
inductive FastaError where
  | emptyInput (resultAtRaise : FastaStats)
deriving DecidableEq, Repr

/-- Loop state of the `for id in fasta_dict` loop (lines 119-128). -/
structure FastaAcc where
  shortest : Option Nat
  longest : Option Nat
  assembly_sum_length : Nat
  gc_count : Nat
deriving DecidableEq, Repr

/-- Body of the `for id in fasta_dict` loop: accumulate total length,
G/C count (counted on the upper-cased sequence), and length extremes.
Each field holds the value the corresponding Python variable has after
one iteration (the four updates are independent of each other). -/
def fastaStep (acc : FastaAcc) (p : String × String) : FastaAcc :=
  let contig_len := p.2.length
  let upper := p.2.toList.map Char.toUpper
  { shortest :=
      match acc.shortest with
      | none => some contig_len
      | some s => if contig_len < s then some contig_len else some s,
    longest :=
      match acc.longest with
      | none => some contig_len
      | some l => if contig_len > l then some contig_len else some l,
    assembly_sum_length := acc.assembly_sum_length + contig_len,
    gc_count := acc.gc_count + (upper.count 'C' + upper.count 'G') }

/-- Embedding of `generate_fasta_stats`.  The sequence set is the
association list `fasta_dict` (id, sequence).  The function fails
exactly when the total sequence length is zero, which is when the
Python source divides by zero at line 133. -/
def generate_fasta_stats (fasta_dict : List (String × String)) :
    Except FastaError FastaStats :=
  let acc := fasta_dict.foldl fastaStep ⟨none, none, 0, 0⟩
  let base : FastaStats :=
    { success := 0,
      stats_assembly_count := fasta_dict.length,
      stats_assembly_sum_length := acc.assembly_sum_length,
      stats_assembly_longest_length := acc.longest,
      stats_assembly_shortest_length := acc.shortest,
      stats_assembly_gc := none }
  if acc.assembly_sum_length = 0 then
    Except.error (FastaError.emptyInput base)
  else
    Except.ok { base with
      stats_assembly_gc :=
        some (format1 ((acc.gc_count : Int) * 100) (acc.assembly_sum_length : Int) ++ "%"),
      success := 1 }

/-- Test whether an `Except` value is a success. -/
def isOkB {ε α : Type} : Except ε α → Bool
  | Except.ok _ => true
  | Except.error _ => false

/-- Predicate for the spec wording "case-insensitive count of G plus C
characters": a character is one of G, g, C, c. -/
def gcSpecChar (c : Char) : Bool :=
  c == 'G' || c == 'g' || c == 'C' || c == 'c'

/-- Spec-side total length of a sequence set (sum of the individual
sequence lengths). -/
def totalLength (d : List (String × String)) : Nat :=
  (d.map (fun p => p.2.length)).sum

/-- Spec-side case-insensitive G+C character count over all sequences. -/
def gcSpecCount (d : List (String × String)) : Nat :=
  (d.map (fun p => p.2.toList.countP gcSpecChar)).sum

/-- Spec-side gc string: G+C count divided by total length, as a
percentage rounded to one decimal place.  Written from the wording of
claim C7, to be compared with the field computed by the code. -/
def gcSpecString (d : List (String × String)) : String :=
  format1 ((gcSpecCount d : Int) * 100) (totalLength d : Int) ++ "%"

/-! ## Gene-model data model (interface of the external gene-model source, §6) -/

/-- Genomic location with start and end coordinates. -/
structure Location where
  fmin : Int
  fmax : Int
deriving DecidableEq, Repr

/-- One GO annotation carried by a functional annotation record; only
its raw identifier suffix `go_id` is read by this script. -/
structure GoAnnot where
  go_id : String
deriving DecidableEq, Repr

/-- Functional annotation record attached to a Polypeptide
(`annot` in the source). -/
structure AnnotRecord where
  product_name : String
  go_annotations : List GoAnnot
  ec_numbers : List String
  dbxrefs : List String
  gene_symbol : Option String
deriving DecidableEq, Repr

/-- Polypeptide; `annotation` is `none` when functionally unannotated. -/
structure Polypeptide where
  annotation : Option AnnotRecord
deriving DecidableEq, Repr

/-- mRNA owning its polypeptides. -/
structure MRNA where
  polypeptides : List Polypeptide
deriving DecidableEq, Repr

/-- An rRNA or tRNA sub-feature; only its multiplicity is read. -/
structure RNAFeature where
  feat_id : String
deriving DecidableEq, Repr

/-- Gene with its locations, rRNA/tRNA sub-features and mRNAs. -/
structure Gene where
  locations : List Location
  rRNAs : List RNAFeature
  tRNAs : List RNAFeature
  mRNAs : List MRNA
deriving DecidableEq, Repr

/-- A named scaffold owning its genes. -/
structure Assembly where
  genes : List Gene
deriving DecidableEq, Repr

/-- The assemblies mapping (assembly id to Assembly), in iteration order. -/
abbrev Assemblies := List (String × Assembly)

/-- All genes in traversal order (`for assembly_id in assemblies: for
gene in assemblies[assembly_id].genes()`). -/
def allGenes (a : Assemblies) : List Gene :=
  (a.map (fun p => p.2.genes)).flatten

/-- All polypeptides of one gene in traversal order (mRNAs outer,
polypeptides inner). -/
def genePolys (g : Gene) : List Polypeptide :=
  (g.mRNAs.map (fun m => m.polypeptides)).flatten

/-- All polypeptides of the whole input in traversal order. -/
def polysOf (a : Assemblies) : List Polypeptide :=
  ((allGenes a).map genePolys).flatten

/-! ## generate_gff_stats (lines 140-180) -/

/-- Errors of `generate_gff_stats`: `emptyInput` is the spec taxonomy
`EmptyInputError` (`ZeroDivisionError` at line 176 when the gene count
is zero); `missingLocation` is the `IndexError` on
`gene.locations[0]` for a gene with no locations. -/
inductive GffError where
  | emptyInput
  | missingLocation
deriving DecidableEq, Repr

/-- Counters of the `result` dict plus the `gene_length_sum` local,
as they stand during the traversal. -/
structure GffAcc where
  stats_gene_count : Nat
  stats_hypo_gene_count : Nat
  stats_specific_annot_count : Nat
  stats_rRNA_count : Nat
  stats_tRNA_count : Nat
  stats_go_terms_assigned : Nat
  stats_ec_numbers_assigned : Nat
  stats_gene_symbols_assigned : Nat
  stats_dbxrefs_assigned : Nat
  gene_length_sum : Int
deriving DecidableEq, Repr

/-- Initial counters (lines 141-148). -/
def initGffAcc : GffAcc := ⟨0, 0, 0, 0, 0, 0, 0, 0, 0, 0⟩

/-- Body of the polypeptide loop (lines 160-174): an unannotated
polypeptide is skipped; otherwise one of the hypothetical/specific
counters is incremented (depending on whether `product_name` contains
the substring "hypothetical"), the three sequence-length counters are
accumulated, and `gene_symbols_assigned` is incremented when a gene
symbol is present. -/
def processPoly (acc : GffAcc) (p : Polypeptide) : GffAcc :=
  match p.annotation with
  | none => acc
  | some annot =>
    { acc with
      stats_hypo_gene_count := acc.stats_hypo_gene_count +
        (if pyIn "hypothetical" annot.product_name then 1 else 0),
      stats_specific_annot_count := acc.stats_specific_annot_count +
        (if pyIn "hypothetical" annot.product_name then 0 else 1),
      stats_go_terms_assigned := acc.stats_go_terms_assigned + annot.go_annotations.length,
      stats_ec_numbers_assigned := acc.stats_ec_numbers_assigned + annot.ec_numbers.length,
      stats_dbxrefs_assigned := acc.stats_dbxrefs_assigned + annot.dbxrefs.length,
      stats_gene_symbols_assigned := acc.stats_gene_symbols_assigned +
        (if annot.gene_symbol.isSome then 1 else 0) }

/-- Body of the mRNA loop (line 159). -/
def processMRNA (acc : GffAcc) (m : MRNA) : GffAcc :=
  m.polypeptides.foldl processPoly acc

/-- Per-gene counter updates (lines 152-156): increment the gene count,
add the first location's extent to the length sum, and OVERWRITE the
rRNA/tRNA counters with this gene's sub-feature counts. -/
def geneUpdate (acc : GffAcc) (loc : Location) (g : Gene) : GffAcc :=
  { acc with
    stats_gene_count := acc.stats_gene_count + 1,
    gene_length_sum := acc.gene_length_sum + (loc.fmax - loc.fmin),
    stats_rRNA_count := g.rRNAs.length,
    stats_tRNA_count := g.tRNAs.length }

/-- Body of the gene loop (lines 151-174); fails on a gene with no
locations (`gene.locations[0]`). -/
def processGene (acc : GffAcc) (g : Gene) : Except GffError GffAcc :=
  match g.locations with
  | [] => Except.error GffError.missingLocation
  | loc :: _ => Except.ok (g.mRNAs.foldl processMRNA (geneUpdate acc loc g))

/-- The gene loop over a list of genes. -/
def processGenes : GffAcc → List Gene → Except GffError GffAcc
  | acc, [] => Except.ok acc
  | acc, g :: gs =>
    match processGene acc g with
    | Except.error e => Except.error e
    | Except.ok acc2 => processGenes acc2 gs

/-- Result record written by `generate_gff_stats` on success. -/
structure GffStats where
  success : Nat
  stats_gene_count : Nat
  stats_hypo_gene_count : Nat
  stats_specific_annot_count : Nat
  stats_rRNA_count : Nat
  stats_tRNA_count : Nat
  stats_go_terms_assigned : Nat
  stats_ec_numbers_assigned : Nat
  stats_gene_symbols_assigned : Nat
  stats_dbxrefs_assigned : Nat
  stats_gene_mean_length : String
  stats_mean_go_terms_per_gene : String
deriving DecidableEq, Repr

/-- Embedding of `generate_gff_stats`.  The two mean fields divide by
the gene count (lines 176-177), so a zero gene count fails with the
spec taxonomy `EmptyInputError`. -/
def generate_gff_stats (assemblies : Assemblies) : Except GffError GffStats :=
  match processGenes initGffAcc (allGenes assemblies) with
  | Except.error e => Except.error e
  | Except.ok acc =>
    if acc.stats_gene_count = 0 then Except.error GffError.emptyInput
    else Except.ok
      { success := 1,
        stats_gene_count := acc.stats_gene_count,
        stats_hypo_gene_count := acc.stats_hypo_gene_count,
        stats_specific_annot_count := acc.stats_specific_annot_count,
        stats_rRNA_count := acc.stats_rRNA_count,
        stats_tRNA_count := acc.stats_tRNA_count,
        stats_go_terms_assigned := acc.stats_go_terms_assigned,
        stats_ec_numbers_assigned := acc.stats_ec_numbers_assigned,
        stats_gene_symbols_assigned := acc.stats_gene_symbols_assigned,
        stats_dbxrefs_assigned := acc.stats_dbxrefs_assigned,
        stats_gene_mean_length :=
          format1 acc.gene_length_sum (acc.stats_gene_count : Int),
        stats_mean_go_terms_per_gene :=
          format1 (acc.stats_go_terms_assigned : Int) (acc.stats_gene_count : Int) }

/-- Spec-side predicate: the polypeptide is annotated and its product
name contains the case-sensitive substring "hypothetical". -/
def isHypo (p : Polypeptide) : Bool :=
  match p.annotation with
  | some annot => pyIn "hypothetical" annot.product_name
  | none => false

/-- Spec-side predicate: the polypeptide carries an annotation. -/
def isAnnotated (p : Polypeptide) : Bool :=
  Option.isSome p.annotation

/-- Spec-side predicate: annotated but not hypothetical (the
"specific annotation" classification). -/
def isSpec (p : Polypeptide) : Bool :=
  isAnnotated p && !(isHypo p)

/-! ## Association-list primitives shared by the GO-term tally and the
slim mapper (Python dicts in iteration order) -/

/-- First-match lookup in an association list (Python `m[k]` /
`k in m`). -/
def alookup {α : Type} : List (String × α) → String → Option α
  | [], _ => none
  | (k, v) :: t, key => if key = k then some v else alookup t key

/-- Add `c` to the entry for key `b`, creating it at the end with
initial value 0 first when absent: the embedding of
`if b not in m: m[b] = 0` followed by `m[b] += c`. -/
def bump : List (String × Nat) → String → Nat → List (String × Nat)
  | [], b, c => [(b, c)]
  | (k, v) :: t, b, c =>
    if k = b then (k, v + c) :: t else (k, v) :: bump t b c

/-! ## parse_go_terms_from_gff (lines 216-230) -/

/-- Error of `parse_go_terms_from_gff`: the Python `AttributeError`
raised at line 224 when `polypeptide.annotation` is `None` (the code
dereferences `annot.go_annotations` without a check). -/
inductive GoCollectError where
  | annotMissing
deriving DecidableEq, Repr

/-- Tally loop over polypeptides in traversal order; each GO annotation
increments the count of its raw identifier. -/
def collectGoTerms : List (String × Nat) → List Polypeptide →
    Except GoCollectError (List (String × Nat))
  | terms, [] => Except.ok terms
  | terms, p :: ps =>
    match p.annotation with
    | none => Except.error GoCollectError.annotMissing
    | some annot =>
      collectGoTerms (annot.go_annotations.foldl (fun ts g => bump ts g.go_id 1) terms) ps

/-- Embedding of `parse_go_terms_from_gff` (the GFF parsing itself is
the out-of-scope external source; the traversal starts from the parsed
assemblies). -/
def parse_go_terms_from_gff (a : Assemblies) : Except GoCollectError (List (String × Nat)) :=
  collectGoTerms [] (polysOf a)

/-! ## map_to_slim (lines 186-213) -/

/-- Raw identifier suffix to occurrence count, in iteration order. -/
abbrev SourceTerms := List (String × Nat)

/-- Namespace label to mapping from fully-qualified GO id to slim term;
`none` is the explicit "no finer mapping" marker (Python `None`). -/
abbrev SlimMap := List (String × List (String × Option String))

/-- Namespace to slim-term bucket counts. -/
abbrev SlimCounts := List (String × List (String × Nat))

/-- The initial counts: every namespace of the slim map starts with an
`unknown` bucket at zero (lines 193-194). -/
def initCounts (slim_map : SlimMap) : SlimCounts :=
  slim_map.map (fun p => (p.1, [("unknown", 0)]))

/-- Scan the namespaces in iteration order and return the first one
whose mapping contains `gff_id`, with the mapped value (lines 200-202). -/
def findSlim : SlimMap → String → Option (String × Option String)
  | [], _ => none
  | (ns, m) :: t, gff_id =>
    match alookup m gff_id with
    | some v => some (ns, v)
    | none => findSlim t gff_id

/-- Replace the bucket table of the first entry named `ns` by bumping
bucket `b` with `c` (the in-place Python dict update). -/
def updateNs : SlimCounts → String → String → Nat → SlimCounts
  | [], _, _, _ => []
  | (k, buckets) :: t, ns, b, c =>
    if k = ns then (k, bump buckets b c) :: t
    else (k, buckets) :: updateNs t ns b c

/-- Body of the `for gff_term in source_terms` loop (lines 196-211):
attribute the term count to the first matching namespace, into the
`unknown` bucket when the mapped value is the marker, else into the
mapped slim-term bucket; no match leaves the counts unchanged. -/
def processTerm (slim_map : SlimMap) (counts : SlimCounts) (t : String × Nat) : SlimCounts :=
  match findSlim slim_map ("GO:" ++ t.1) with
  | none => counts
  | some (ns, none) => updateNs counts ns "unknown" t.2
  | some (ns, some slim_term) => updateNs counts ns slim_term t.2

set_option linter.unusedVariables false in
/-- Embedding of `map_to_slim`.  The local `skip_slim_terms` (line 188)
is kept to mirror the source; the body never reads it. -/
def map_to_slim (source_terms : SourceTerms) (slim_map : SlimMap) : SlimCounts :=
  let skip_slim_terms : List String := ["GO:0008150", "GO:0003674", "GO:0005575"]
  source_terms.foldl (processTerm slim_map) (initCounts slim_map)

/-- The same function with the `skip_slim_terms` binding removed, for
the refinement claim C8. -/
def map_to_slim_noskip (source_terms : SourceTerms) (slim_map : SlimMap) : SlimCounts :=
  source_terms.foldl (processTerm slim_map) (initCounts slim_map)

/-- Spec-side attribution target of a raw identifier: the first
namespace whose mapping contains the fully-qualified id, paired with
the bucket the count goes to (`unknown` for the marker). -/
def bucketOf (slim_map : SlimMap) (suffix : String) : Option (String × String) :=
  match findSlim slim_map ("GO:" ++ suffix) with
  | none => none
  | some (ns, none) => some (ns, "unknown")
  | some (ns, some slim_term) => some (ns, slim_term)

/-- Total count the source terms attribute to a given namespace and
bucket. -/
def attributedCount (slim_map : SlimMap) (source : SourceTerms) (ns b : String) : Nat :=
  ((source.filter (fun t => bucketOf slim_map t.1 = some (ns, b))).map (fun t => t.2)).sum

/-- Whether `ns` is a namespace of the slim map. -/
def nsKey (slim_map : SlimMap) (ns : String) : Bool :=
  (alookup slim_map ns).isSome

/-- Whether some source term is attributed to the given namespace and
bucket. -/
def touchedB (slim_map : SlimMap) (source : SourceTerms) (ns b : String) : Bool :=
  source.any (fun t => bucketOf slim_map t.1 == some (ns, b))

/-- Value of one bucket in a SlimCounts table (`none` when the
namespace or the bucket is absent). -/
def outVal (counts : SlimCounts) (ns b : String) : Option Nat :=
  Option.bind (alookup counts ns) (fun buckets => alookup buckets b)

/-! ## Caching control flow of main (lines 64-104) -/

/-- Persisted artifacts at their expected locations inside the input
directory: `none` means the file does not exist
(`fasta_stats.json`, the features/assemblies pickles, `gff_stats.json`,
`obo_slim_counts.json`). -/
structure ArtifactStore (α β γ δ : Type) where
  fastaStats : Option α
  storedFeatures : Option β
  gffStats : Option γ
  slimCounts : Option δ
deriving DecidableEq, Repr

/-- Which producer functions one invocation of main ran. -/
structure ProducerRuns where
  ranGenerateFastaStats : Bool
  ranGffParse : Bool
  ranGenerateGffStats : Bool
  ranMapToSlim : Bool
deriving DecidableEq, Repr

/-- The artifact-producing section of `main` (lines 64-104), one pass:
each of the first three artifacts is produced and persisted only when
its file does not exist (`os.path.exists` checks at lines 64, 71, 88);
the slim counts are recomputed by `parse_go_terms_from_gff` +
`map_to_slim` and written to `obo_slim_counts.json` unconditionally
(lines 95-104).  The values that the producers would produce this pass
are passed in as `freshFasta` ... `freshSlim`. -/
def mainCachePass {α β γ δ : Type} (freshFasta : α) (freshFeatures : β)
    (freshGff : γ) (freshSlim : δ) (s : ArtifactStore α β γ δ) :
    ArtifactStore α β γ δ × ProducerRuns :=
  let fastaRes : Option α × Bool :=
    match s.fastaStats with
    | some v => (some v, false)
    | none => (some freshFasta, true)
  let featRes : Option β × Bool :=
    match s.storedFeatures with
    | some v => (some v, false)
    | none => (some freshFeatures, true)
  let gffRes : Option γ × Bool :=
    match s.gffStats with
    | some v => (some v, false)
    | none => (some freshGff, true)
  (⟨fastaRes.1, featRes.1, gffRes.1, some freshSlim⟩,
   ⟨fastaRes.2, featRes.2, gffRes.2, true⟩)

/-! ## Concrete inputs used by witnesses and counterexamples -/

/-- Gene-model input with one assembly and no genes. -/
def aEx3 : Assemblies := [("scaffold_empty", ⟨[]⟩)]

/-- First gene of the C5 witness input: length 10, one rRNA. -/
def geneEx5a : Gene := ⟨[⟨0, 10⟩], [⟨"r1"⟩], [], []⟩

/-- Second gene of the C5 witness input: length 20, two rRNAs, one tRNA. -/
def geneEx5b : Gene := ⟨[⟨0, 20⟩], [⟨"r2"⟩, ⟨"r3"⟩], [⟨"t1"⟩], []⟩

/-- Two-gene input whose genes carry different rRNA/tRNA counts. -/
def aEx5 : Assemblies := [("asm1", ⟨[geneEx5a, geneEx5b]⟩)]

/-- Stats record produced on `aEx5`. -/
def rEx5 : GffStats := ⟨1, 2, 0, 0, 2, 1, 0, 0, 0, 0, "15.0", "0.0"⟩

/-- Polypeptide annotated "hypothetical protein". -/
def polyHypo : Polypeptide := ⟨some ⟨"hypothetical protein", [], [], [], none⟩⟩

/-- Polypeptide annotated "kinase". -/
def polyKinase : Polypeptide := ⟨some ⟨"kinase", [], [], [], none⟩⟩

/-- Two-gene input of the spec §8 example: lengths 100 and 200, one
hypothetical and one specific annotation. -/
def aEx6 : Assemblies :=
  [("asm1", ⟨[⟨[⟨0, 100⟩], [], [], [⟨[polyHypo]⟩]⟩, ⟨[⟨100, 300⟩], [], [], [⟨[polyKinase]⟩]⟩]⟩)]

/-- Stats record produced on `aEx6`. -/
def rEx6 : GffStats := ⟨1, 2, 1, 1, 0, 0, 0, 0, 0, 0, "150.0", "0.0"⟩

/-- One-namespace slim map used by the C9 witness. -/
def mEx9 : SlimMap := [("biological_process", [("GO:0000001", some "metabolism")])]

/-- Input with one gene whose only polypeptide is unannotated. -/
def aEx10 : Assemblies := [("asm1", ⟨[⟨[⟨0, 100⟩], [], [], [⟨[⟨none⟩]⟩]⟩]⟩)]

/-! ## Theorems -/

theorem char_eq_iff_toNat (c d : Char) : c = d ↔ c.toNat = d.toNat :=
  ⟨fun h => by rw [h], fun h => Char.ext (UInt32.toNat.inj h)⟩

theorem toNat_ofNat_small {m : Nat} (h : m < 55296) : (Char.ofNat m).toNat = m := by
  rw [Char.ofNat, dif_pos (Or.inl (by omega : m < 55296))]
  simp [Char.ofNatAux, Char.toNat, UInt32.toNat]

theorem toUpper_toNat (c : Char) :
    (Char.toUpper c).toNat = if 97 ≤ c.toNat ∧ c.toNat ≤ 122 then c.toNat - 32 else c.toNat := by
  rw [show Char.toUpper c = if c.toNat ≥ 97 ∧ c.toNat ≤ 122 then Char.ofNat (c.toNat - 32) else c
      from rfl, apply_ite Char.toNat]
  by_cases h : 97 ≤ c.toNat ∧ c.toNat ≤ 122
  · rw [if_pos h, if_pos (by omega : c.toNat ≥ 97 ∧ c.toNat ≤ 122), toNat_ofNat_small (by omega)]
  · rw [if_neg h, if_neg (by omega : ¬ (c.toNat ≥ 97 ∧ c.toNat ≤ 122))]

theorem gcChar_indicator (c : Char) :
    ((if Char.toUpper c = 'C' then 1 else 0) + (if Char.toUpper c = 'G' then 1 else 0) : Nat)
      = if gcSpecChar c then 1 else 0 := by
  have hup := toUpper_toNat c
  simp only [gcSpecChar, Bool.or_eq_true, beq_iff_eq, char_eq_iff_toNat]
  have h67 : ('C').toNat = 67 := rfl
  have h71 : ('G').toNat = 71 := rfl
  have h99 : ('c').toNat = 99 := rfl
  have h103 : ('g').toNat = 103 := rfl
  rw [h67, h71, h99, h103, hup]
  by_cases h : 97 ≤ c.toNat ∧ c.toNat ≤ 122 <;>
    [rw [if_pos h]; rw [if_neg h]] <;> split_ifs <;> omega

theorem gc_count_chars (l : List Char) :
    (l.map Char.toUpper).count 'C' + (l.map Char.toUpper).count 'G' = l.countP gcSpecChar := by
  induction l with
  | nil => rfl
  | cons c t ih =>
    simp only [List.map_cons, List.count_cons, List.countP_cons, beq_iff_eq]
    have hc := gcChar_indicator c
    omega

theorem fastaStep_sum (acc : FastaAcc) (p : String × String) :
    (fastaStep acc p).assembly_sum_length = acc.assembly_sum_length + p.2.length := rfl

theorem fastaStep_gc (acc : FastaAcc) (p : String × String) :
    (fastaStep acc p).gc_count = acc.gc_count + p.2.toList.countP gcSpecChar := by
  rw [← gc_count_chars]; rfl

theorem fastaFold_sum (d : List (String × String)) (acc : FastaAcc) :
    (d.foldl fastaStep acc).assembly_sum_length = acc.assembly_sum_length + totalLength d := by
  induction d generalizing acc with
  | nil => simp [totalLength]
  | cons p t ih =>
    rw [List.foldl_cons, ih, fastaStep_sum]
    simp [totalLength, Nat.add_assoc]

theorem fastaFold_gc (d : List (String × String)) (acc : FastaAcc) :
    (d.foldl fastaStep acc).gc_count = acc.gc_count + gcSpecCount d := by
  induction d generalizing acc with
  | nil => simp [gcSpecCount]
  | cons p t ih =>
    rw [List.foldl_cons, ih, fastaStep_gc]
    simp [gcSpecCount, Nat.add_assoc]

/-- Claim C1: on the empty sequence set, `generate_fasta_stats` fails
with `EmptyInputError` (the division by zero on the GC fraction), and
the result record at the point of failure is non-success
(`success = 0`) with the gc field unset. -/
theorem fasta_stats_empty_input :
    ∃ st, generate_fasta_stats [] = Except.error (FastaError.emptyInput st) ∧
      st.success = 0 ∧ st.stats_assembly_gc = none :=
  ⟨_, rfl, rfl, rfl⟩

/-- Claim C7 (amended): for every sequence set of positive total
length, the gc field equals the case-insensitive G+C count divided by
the total length, as a percentage string rounded to one decimal. -/
theorem gc_percent_correct (d : List (String × String)) (h : totalLength d ≠ 0) :
    ∃ r, generate_fasta_stats d = Except.ok r ∧
      r.stats_assembly_gc = some (gcSpecString d) := by
  unfold generate_fasta_stats
  dsimp only
  have hs := fastaFold_sum d ⟨none, none, 0, 0⟩
  have hg := fastaFold_gc d ⟨none, none, 0, 0⟩
  rw [hs, hg]
  simp only [Nat.zero_add]
  rw [if_neg h]
  exact ⟨_, rfl, rfl⟩

/-- Claim C7 as stated is false: a non-empty sequence set may still
have total length zero, and there `generate_fasta_stats` fails instead
of producing a gc percentage. -/
theorem gc_percent_claim_counterexample :
    ¬ (∀ d : List (String × String), d ≠ [] →
        ∃ r, generate_fasta_stats d = Except.ok r ∧
          r.stats_assembly_gc = some (gcSpecString d)) := by
  intro hclaim
  obtain ⟨r, hr, -⟩ := hclaim [("A", "")] (by simp)
  rw [show generate_fasta_stats [("A", "")] = Except.error (FastaError.emptyInput
      { success := 0, stats_assembly_count := 1, stats_assembly_sum_length := 0,
        stats_assembly_longest_length := some 0, stats_assembly_shortest_length := some 0,
        stats_assembly_gc := none }) from rfl] at hr
  exact Except.noConfusion hr

/-- Witness for claim C7 on the §8 example input. -/
theorem gc_percent_correct_witness :
    totalLength [("A", "ACGT"), ("B", "GGGGCCCC")] ≠ 0 ∧
    ∃ r, generate_fasta_stats [("A", "ACGT"), ("B", "GGGGCCCC")] = Except.ok r ∧
      r.stats_assembly_gc = some (gcSpecString [("A", "ACGT"), ("B", "GGGGCCCC")]) :=
  ⟨by decide, gc_percent_correct _ (by decide)⟩

theorem processPoly_keeps (acc : GffAcc) (p : Polypeptide) :
    (processPoly acc p).stats_gene_count = acc.stats_gene_count ∧
    (processPoly acc p).stats_rRNA_count = acc.stats_rRNA_count ∧
    (processPoly acc p).stats_tRNA_count = acc.stats_tRNA_count := by
  rcases p with ⟨_ | an⟩ <;> exact ⟨rfl, rfl, rfl⟩

theorem processPoly_hypo (acc : GffAcc) (p : Polypeptide) :
    (processPoly acc p).stats_hypo_gene_count =
      acc.stats_hypo_gene_count + (if isHypo p then 1 else 0) := by
  rcases p with ⟨_ | an⟩ <;> simp [processPoly, isHypo]

theorem processPoly_specific (acc : GffAcc) (p : Polypeptide) :
    (processPoly acc p).stats_specific_annot_count =
      acc.stats_specific_annot_count + (if isSpec p then 1 else 0) := by
  rcases p with ⟨_ | an⟩
  · simp [processPoly, isSpec, isAnnotated]
  · by_cases hb : pyIn "hypothetical" an.product_name <;>
      simp [processPoly, isSpec, isAnnotated, isHypo, hb]

theorem foldPolys_keeps (ps : List Polypeptide) (acc : GffAcc) :
    (ps.foldl processPoly acc).stats_gene_count = acc.stats_gene_count ∧
    (ps.foldl processPoly acc).stats_rRNA_count = acc.stats_rRNA_count ∧
    (ps.foldl processPoly acc).stats_tRNA_count = acc.stats_tRNA_count := by
  induction ps generalizing acc with
  | nil => exact ⟨rfl, rfl, rfl⟩
  | cons p t ih =>
    obtain ⟨h1, h2, h3⟩ := ih (processPoly acc p)
    obtain ⟨k1, k2, k3⟩ := processPoly_keeps acc p
    exact ⟨by rw [List.foldl_cons, h1, k1], by rw [List.foldl_cons, h2, k2],
           by rw [List.foldl_cons, h3, k3]⟩

theorem foldPolys_hypo (ps : List Polypeptide) (acc : GffAcc) :
    (ps.foldl processPoly acc).stats_hypo_gene_count =
      acc.stats_hypo_gene_count + ps.countP isHypo := by
  induction ps generalizing acc with
  | nil => rfl
  | cons p t ih =>
    rw [List.foldl_cons, ih, processPoly_hypo]
    simp only [List.countP_cons]
    omega

theorem foldPolys_specific (ps : List Polypeptide) (acc : GffAcc) :
    (ps.foldl processPoly acc).stats_specific_annot_count =
      acc.stats_specific_annot_count + ps.countP isSpec := by
  induction ps generalizing acc with
  | nil => rfl
  | cons p t ih =>
    rw [List.foldl_cons, ih, processPoly_specific]
    simp only [List.countP_cons]
    omega

theorem foldMRNAs_keeps (ms : List MRNA) (acc : GffAcc) :
    (ms.foldl processMRNA acc).stats_gene_count = acc.stats_gene_count ∧
    (ms.foldl processMRNA acc).stats_rRNA_count = acc.stats_rRNA_count ∧
    (ms.foldl processMRNA acc).stats_tRNA_count = acc.stats_tRNA_count := by
  induction ms generalizing acc with
  | nil => exact ⟨rfl, rfl, rfl⟩
  | cons m t ih =>
    obtain ⟨h1, h2, h3⟩ := ih (processMRNA acc m)
    obtain ⟨k1, k2, k3⟩ := foldPolys_keeps m.polypeptides acc
    exact ⟨by rw [List.foldl_cons, h1]; exact k1, by rw [List.foldl_cons, h2]; exact k2,
           by rw [List.foldl_cons, h3]; exact k3⟩

theorem foldMRNAs_hypo (ms : List MRNA) (acc : GffAcc) :
    (ms.foldl processMRNA acc).stats_hypo_gene_count =
      acc.stats_hypo_gene_count + ((ms.map (fun m => m.polypeptides)).flatten).countP isHypo := by
  induction ms generalizing acc with
  | nil => rfl
  | cons m t ih =>
    rw [List.foldl_cons, ih]
    show (m.polypeptides.foldl processPoly acc).stats_hypo_gene_count + _ = _
    rw [foldPolys_hypo]
    simp [List.countP_append, Nat.add_assoc]

theorem foldMRNAs_specific (ms : List MRNA) (acc : GffAcc) :
    (ms.foldl processMRNA acc).stats_specific_annot_count =
      acc.stats_specific_annot_count + ((ms.map (fun m => m.polypeptides)).flatten).countP isSpec := by
  induction ms generalizing acc with
  | nil => rfl
  | cons m t ih =>
    rw [List.foldl_cons, ih]
    show (m.polypeptides.foldl processPoly acc).stats_specific_annot_count + _ = _
    rw [foldPolys_specific]
    simp [List.countP_append, Nat.add_assoc]

theorem processGenes_ok_rna {gs : List Gene} {acc acc2 : GffAcc}
    (h : processGenes acc gs = Except.ok acc2) :
    acc2.stats_rRNA_count =
      ((gs.getLast?).map (fun g => g.rRNAs.length)).getD acc.stats_rRNA_count ∧
    acc2.stats_tRNA_count =
      ((gs.getLast?).map (fun g => g.tRNAs.length)).getD acc.stats_tRNA_count := by
  induction gs generalizing acc with
  | nil =>
    cases h
    exact ⟨rfl, rfl⟩
  | cons g t ih =>
    rw [processGenes] at h
    rcases hloc : g.locations with _ | ⟨loc, rest⟩
    · rw [processGene, hloc] at h
      exact absurd h (by simp)
    · rw [processGene, hloc] at h
      simp only at h
      obtain ⟨h1, h2⟩ := ih h
      obtain ⟨-, k2, k3⟩ := foldMRNAs_keeps g.mRNAs (geneUpdate acc loc g)
      rcases t with _ | ⟨g2, t2⟩
      · cases h
        simp only [List.getLast?_nil, Option.map_none, Option.getD_none] at h1 h2 ⊢
        rw [List.getLast?_singleton]
        exact ⟨by rw [h1, k2]; rfl, by rw [h2, k3]; rfl⟩
      · rw [List.getLast?_cons_cons]
        have hne : (g2 :: t2).getLast?.isSome := by
          rw [List.getLast?_isSome]
          simp
        obtain ⟨glast, hglast⟩ := Option.isSome_iff_exists.mp hne
        rw [hglast] at h1 h2 ⊢
        exact ⟨h1, h2⟩

theorem processGenes_ok_counts {gs : List Gene} {acc acc2 : GffAcc}
    (h : processGenes acc gs = Except.ok acc2) :
    acc2.stats_hypo_gene_count =
      acc.stats_hypo_gene_count + ((gs.map genePolys).flatten).countP isHypo ∧
    acc2.stats_specific_annot_count =
      acc.stats_specific_annot_count + ((gs.map genePolys).flatten).countP isSpec := by
  induction gs generalizing acc with
  | nil =>
    cases h
    exact ⟨by simp, by simp⟩
  | cons g t ih =>
    rw [processGenes] at h
    rcases hloc : g.locations with _ | ⟨loc, rest⟩
    · rw [processGene, hloc] at h
      exact absurd h (by simp)
    · rw [processGene, hloc] at h
      simp only at h
      obtain ⟨h1, h2⟩ := ih h
      have e1 := foldMRNAs_hypo g.mRNAs (geneUpdate acc loc g)
      have e2 := foldMRNAs_specific g.mRNAs (geneUpdate acc loc g)
      rw [h1, h2, e1, e2]
      have hg : ((g.mRNAs.map (fun m => m.polypeptides)).flatten) = genePolys g := rfl
      rw [hg]
      constructor
      · show (geneUpdate acc loc g).stats_hypo_gene_count + _ + _ = _
        have hk : (geneUpdate acc loc g).stats_hypo_gene_count = acc.stats_hypo_gene_count := rfl
        rw [hk]
        simp [List.countP_append, Nat.add_assoc]
      · show (geneUpdate acc loc g).stats_specific_annot_count + _ + _ = _
        have hk : (geneUpdate acc loc g).stats_specific_annot_count =
          acc.stats_specific_annot_count := rfl
        rw [hk]
        simp [List.countP_append, Nat.add_assoc]

theorem countP_hypo_spec (ps : List Polypeptide) :
    ps.countP isHypo + ps.countP isSpec = ps.countP isAnnotated := by
  induction ps with
  | nil => rfl
  | cons p t ih =>
    simp only [List.countP_cons]
    have hi : (if isHypo p then (1 : Nat) else 0) + (if isSpec p then 1 else 0) =
        if isAnnotated p then 1 else 0 := by
      rcases p with ⟨_ | an⟩
      · simp [isHypo, isSpec, isAnnotated]
      · by_cases hb : pyIn "hypothetical" an.product_name <;>
          simp [isHypo, isSpec, isAnnotated, hb]
    omega

/-- Claim C3: on a gene-model input with zero genes the aggregator
fails with `EmptyInputError` (the division by zero at lines 176-177
when computing the two mean fields) instead of producing a record. -/
theorem gff_stats_empty_input (a : Assemblies) (h : allGenes a = []) :
    generate_gff_stats a = Except.error GffError.emptyInput := by
  unfold generate_gff_stats
  rw [h]
  rfl

/-- Witness for claim C3 on an input with one empty assembly. -/
theorem gff_stats_empty_input_witness :
    allGenes aEx3 = [] ∧ generate_gff_stats aEx3 = Except.error GffError.emptyInput :=
  ⟨rfl, gff_stats_empty_input aEx3 rfl⟩

/-- Claim C5: in every successfully computed gene-model record the
rRNA/tRNA counters hold the sub-feature counts of the last visited
gene only (the per-gene assignment at lines 155-156 overwrites instead
of accumulating). -/
theorem gff_stats_rna_last_gene (a : Assemblies) (r : GffStats) (g : Gene)
    (hok : generate_gff_stats a = Except.ok r)
    (hlast : (allGenes a).getLast? = some g) :
    r.stats_rRNA_count = g.rRNAs.length ∧ r.stats_tRNA_count = g.tRNAs.length := by
  unfold generate_gff_stats at hok
  rcases hpg : processGenes initGffAcc (allGenes a) with e | acc
  · rw [hpg] at hok
    exact absurd hok (by simp)
  · rw [hpg] at hok
    simp only at hok
    by_cases hz : acc.stats_gene_count = 0
    · rw [if_pos hz] at hok
      exact absurd hok (by simp)
    · rw [if_neg hz] at hok
      obtain ⟨h1, h2⟩ := processGenes_ok_rna hpg
      rw [hlast] at h1 h2
      cases hok
      exact ⟨h1, h2⟩

/-- Witness for claim C5: the two genes carry 1 and 2 rRNAs, and the
result reports 2 (the last gene), not 3 (the sum). -/
theorem gff_stats_rna_last_gene_witness :
    generate_gff_stats aEx5 = Except.ok rEx5 ∧
    (allGenes aEx5).getLast? = some geneEx5b ∧
    (rEx5.stats_rRNA_count = geneEx5b.rRNAs.length ∧
     rEx5.stats_tRNA_count = geneEx5b.tRNAs.length) :=
  ⟨rfl, rfl, gff_stats_rna_last_gene aEx5 rEx5 geneEx5b rfl rfl⟩

/-- Claim C6: in every successfully computed gene-model record,
hypothetical plus specific annotation counts equal the number of
annotated polypeptides, and the hypothetical counter counts exactly
the polypeptides whose product name contains the case-sensitive
substring "hypothetical". -/
theorem gff_stats_annot_partition (a : Assemblies) (r : GffStats)
    (hok : generate_gff_stats a = Except.ok r) :
    r.stats_hypo_gene_count + r.stats_specific_annot_count = (polysOf a).countP isAnnotated ∧
    r.stats_hypo_gene_count = (polysOf a).countP isHypo := by
  unfold generate_gff_stats at hok
  rcases hpg : processGenes initGffAcc (allGenes a) with e | acc
  · rw [hpg] at hok
    exact absurd hok (by simp)
  · rw [hpg] at hok
    simp only at hok
    by_cases hz : acc.stats_gene_count = 0
    · rw [if_pos hz] at hok
      exact absurd hok (by simp)
    · rw [if_neg hz] at hok
      obtain ⟨h1, h2⟩ := processGenes_ok_counts hpg
      simp only [initGffAcc, Nat.zero_add] at h1 h2
      cases hok
      have hpol : ((allGenes a).map genePolys).flatten = polysOf a := rfl
      rw [hpol] at h1 h2
      constructor
      · show acc.stats_hypo_gene_count + acc.stats_specific_annot_count = _
        rw [h1, h2, countP_hypo_spec]
      · exact h1

/-- Witness for claim C6 on the spec §8 example input. -/
theorem gff_stats_annot_partition_witness :
    generate_gff_stats aEx6 = Except.ok rEx6 ∧
    (rEx6.stats_hypo_gene_count + rEx6.stats_specific_annot_count =
        (polysOf aEx6).countP isAnnotated ∧
     rEx6.stats_hypo_gene_count = (polysOf aEx6).countP isHypo) :=
  ⟨rfl, gff_stats_annot_partition aEx6 rEx6 rfl⟩

/-- Claim C10: on an input containing an unannotated polypeptide the
GO-term collector fails (it dereferences the annotation with no check
at line 224) while the stats aggregator succeeds by skipping the same
polypeptide. -/
theorem go_collector_fails_on_unannotated :
    parse_go_terms_from_gff aEx10 = Except.error GoCollectError.annotMissing ∧
    isOkB (generate_gff_stats aEx10) = true :=
  ⟨rfl, rfl⟩

theorem alookup_bump (bs : List (String × Nat)) (b b2 : String) (c : Nat) :
    alookup (bump bs b c) b2 =
      if b2 = b then some ((alookup bs b).getD 0 + c) else alookup bs b2 := by
  induction bs with
  | nil =>
    by_cases h : b2 = b <;> simp [bump, alookup, h]
  | cons kv t ih =>
    obtain ⟨k, v⟩ := kv
    by_cases hkb : k = b
    · subst hkb
      by_cases h2 : b2 = k <;> simp [bump, alookup, h2]
    · have hbk : ¬ b = k := fun hc => hkb hc.symm
      by_cases h2 : b2 = k
      · have hne : ¬ b2 = b := fun hc => hkb (h2.symm.trans hc)
        simp [bump, alookup, hkb, h2, hne]
      · simp [bump, alookup, hkb, h2, hbk, ih]

theorem alookup_updateNs (counts : SlimCounts) (ns b : String) (c : Nat) (n : String) :
    alookup (updateNs counts ns b c) n =
      if n = ns then (alookup counts ns).map (fun bs => bump bs b c)
      else alookup counts n := by
  induction counts with
  | nil =>
    by_cases h : n = ns <;> simp [updateNs, alookup, h]
  | cons kv t ih =>
    obtain ⟨k, buckets⟩ := kv
    by_cases hk : k = ns
    · subst hk
      by_cases hn : n = k <;> simp [updateNs, alookup, hn]
    · have hnsk : ¬ ns = k := fun hc => hk hc.symm
      by_cases hn : n = k
      · have hne : ¬ n = ns := fun hc => hk (hn.symm.trans hc)
        simp [updateNs, alookup, hk, hn, hne]
      · simp [updateNs, alookup, hk, hn, hnsk, ih]

theorem findSlim_nsKey {m : SlimMap} {gid ns : String} {v : Option String}
    (h : findSlim m gid = some (ns, v)) : nsKey m ns = true := by
  induction m with
  | nil => exact absurd h (by simp [findSlim])
  | cons p t ih =>
    obtain ⟨k, mp⟩ := p
    rw [findSlim] at h
    rcases hl : alookup mp gid with _ | v2
    · rw [hl] at h
      simp only at h
      have hr := ih h
      rw [nsKey, alookup]
      by_cases hk : ns = k <;> simp [hk]
      exact hr
    · rw [hl] at h
      simp only [Option.some.injEq, Prod.mk.injEq] at h
      obtain ⟨h1, -⟩ := h
      subst h1
      simp [nsKey, alookup]

theorem bucketOf_nsKey {m : SlimMap} {suf ns b : String}
    (h : bucketOf m suf = some (ns, b)) : nsKey m ns = true := by
  rw [bucketOf] at h
  rcases hf : findSlim m ("GO:" ++ suf) with _ | ⟨ns0, v0⟩
  · rw [hf] at h
    exact absurd h (by simp)
  · rw [hf] at h
    cases v0 <;>
    · simp only [Option.some.injEq, Prod.mk.injEq] at h
      obtain ⟨h1, -⟩ := h
      subst h1
      exact findSlim_nsKey hf

theorem touchedB_nsKey {m : SlimMap} {s : SourceTerms} {ns b : String}
    (h : touchedB m s ns b = true) : nsKey m ns = true := by
  rw [touchedB, List.any_eq_true] at h
  obtain ⟨t, -, ht⟩ := h
  rw [beq_iff_eq] at ht
  exact bucketOf_nsKey ht

theorem processTerm_keys (m : SlimMap) (counts : SlimCounts) (t : String × Nat) (n : String) :
    (alookup (processTerm m counts t) n).isSome = (alookup counts n).isSome := by
  rw [processTerm]
  rcases hf : findSlim m ("GO:" ++ t.1) with _ | ⟨ns0, v0⟩
  · rfl
  · cases v0 <;>
    · simp only
      rw [alookup_updateNs]
      by_cases hn : n = ns0 <;> simp [hn]

theorem outVal_updateNs {counts : SlimCounts} {ns0 : String} {bs : List (String × Nat)}
    (hbs : alookup counts ns0 = some bs) (b0 : String) (c : Nat) (ns b : String) :
    outVal (updateNs counts ns0 b0 c) ns b =
      if ns = ns0 ∧ b = b0 then some ((outVal counts ns b).getD 0 + c)
      else outVal counts ns b := by
  by_cases hn : ns = ns0
  · subst hn
    by_cases hb : b = b0
    · subst hb
      simp [outVal, alookup_updateNs, hbs, alookup_bump]
    · simp [outVal, alookup_updateNs, hbs, alookup_bump, hb]
  · simp [outVal, alookup_updateNs, hn]

theorem processTerm_outVal (m : SlimMap) (counts : SlimCounts) (t : String × Nat) (ns b : String)
    (hk : ∀ n, (alookup counts n).isSome = nsKey m n) :
    outVal (processTerm m counts t) ns b =
      if bucketOf m t.1 = some (ns, b) then some ((outVal counts ns b).getD 0 + t.2)
      else outVal counts ns b := by
  rcases hf : findSlim m ("GO:" ++ t.1) with _ | ⟨ns0, v0⟩
  · have hb : bucketOf m t.1 = none := by rw [bucketOf, hf]
    rw [processTerm, hf, hb]
    simp
  · have hsome : (alookup counts ns0).isSome = true := by
      rw [hk ns0]
      exact findSlim_nsKey hf
    obtain ⟨bs, hbs⟩ := Option.isSome_iff_exists.mp hsome
    cases v0 with
    | none =>
      have hb : bucketOf m t.1 = some (ns0, "unknown") := by rw [bucketOf, hf]
      rw [processTerm, hf, hb]
      simp only
      rw [outVal_updateNs hbs]
      by_cases hcond : ns = ns0 ∧ b = "unknown"
      · rw [if_pos hcond, if_pos (by obtain ⟨hc1, hc2⟩ := hcond; rw [hc1, hc2])]
      · rw [if_neg hcond, if_neg (by
          intro hc
          simp only [Option.some.injEq, Prod.mk.injEq] at hc
          exact hcond ⟨hc.1.symm, hc.2.symm⟩)]
    | some st =>
      have hb : bucketOf m t.1 = some (ns0, st) := by rw [bucketOf, hf]
      rw [processTerm, hf, hb]
      simp only
      rw [outVal_updateNs hbs]
      by_cases hcond : ns = ns0 ∧ b = st
      · rw [if_pos hcond, if_pos (by obtain ⟨hc1, hc2⟩ := hcond; rw [hc1, hc2])]
      · rw [if_neg hcond, if_neg (by
          intro hc
          simp only [Option.some.injEq, Prod.mk.injEq] at hc
          exact hcond ⟨hc.1.symm, hc.2.symm⟩)]

theorem attributedCount_cons (m : SlimMap) (t : String × Nat) (rest : SourceTerms) (ns b : String) :
    attributedCount m (t :: rest) ns b =
      (if bucketOf m t.1 = some (ns, b) then t.2 else 0) + attributedCount m rest ns b := by
  by_cases h : bucketOf m t.1 = some (ns, b)
  · rw [attributedCount, List.filter_cons_of_pos (by simp [h]), List.map_cons, List.sum_cons,
      if_pos h, attributedCount]
  · rw [attributedCount, List.filter_cons_of_neg (by simp [h]), if_neg h, Nat.zero_add,
      attributedCount]

theorem foldTerms_outVal (m : SlimMap) (s : SourceTerms) (counts : SlimCounts) (ns b : String)
    (hk : ∀ n, (alookup counts n).isSome = nsKey m n) :
    outVal (s.foldl (processTerm m) counts) ns b =
      match outVal counts ns b with
      | some v => some (v + attributedCount m s ns b)
      | none =>
        if touchedB m s ns b then some (attributedCount m s ns b) else none := by
  induction s generalizing counts with
  | nil =>
    rcases hv : outVal counts ns b with _ | v
    · simp [touchedB, hv]
    · simp only [List.foldl_nil, hv, attributedCount, List.filter_nil, List.map_nil,
        List.sum_nil, Nat.add_zero]
  | cons t rest ih =>
    rw [List.foldl_cons]
    have hk2 : ∀ n, (alookup (processTerm m counts t) n).isSome = nsKey m n := by
      intro n
      rw [processTerm_keys]
      exact hk n
    rw [ih (processTerm m counts t) hk2, processTerm_outVal m counts t ns b hk,
      attributedCount_cons]
    have htc : touchedB m (t :: rest) ns b =
        ((bucketOf m t.1 == some (ns, b)) || touchedB m rest ns b) := rfl
    by_cases hb : bucketOf m t.1 = some (ns, b)
    · rw [if_pos hb]
      rcases hv : outVal counts ns b with _ | v
      · simp only [hv, Option.getD_none, Nat.zero_add, if_pos hb, htc]
        rw [show (bucketOf m t.1 == some (ns, b)) = true by simp [hb], Bool.true_or]
        rcases ht : touchedB m rest ns b <;> simp
      · simp only [hv, Option.getD_some, if_pos hb]
        simp [Nat.add_assoc]
    · rw [if_neg hb, htc]
      rw [show (bucketOf m t.1 == some (ns, b)) = false by simp [hb], Bool.false_or, if_neg hb,
        Nat.zero_add]

theorem alookup_initCounts (m : SlimMap) (ns : String) :
    alookup (initCounts m) ns = (alookup m ns).map (fun _ => [("unknown", 0)]) := by
  induction m with
  | nil => simp [initCounts, alookup]
  | cons p t ih =>
    obtain ⟨k, mp⟩ := p
    by_cases h : ns = k
    · simp [initCounts, alookup, h]
    · simp only [initCounts, List.map_cons, alookup, if_neg h]
      simpa [initCounts] using ih

theorem mapToSlim_outVal (m : SlimMap) (s : SourceTerms) (ns b : String) :
    outVal (map_to_slim s m) ns b =
      if nsKey m ns then
        if b = "unknown" then some (attributedCount m s ns b)
        else if touchedB m s ns b then some (attributedCount m s ns b) else none
      else none := by
  have hk : ∀ n, (alookup (initCounts m) n).isSome = nsKey m n := by
    intro n
    rw [alookup_initCounts, nsKey]
    rcases alookup m n <;> simp
  rw [map_to_slim]
  rw [foldTerms_outVal m s (initCounts m) ns b hk]
  have hinit : outVal (initCounts m) ns b =
      if nsKey m ns then (if b = "unknown" then some 0 else none) else none := by
    rw [outVal, alookup_initCounts, nsKey]
    rcases hm : alookup m ns with _ | mp
    · simp
    · simp only [Option.map_some, Option.bind_some, Option.isSome_some, if_true]
      by_cases hb : b = "unknown" <;> simp [alookup, hb]
  rw [hinit]
  rcases hns : nsKey m ns with _ | _
  · simp only [Bool.false_eq_true, if_false]
    rcases ht : touchedB m s ns b with _ | _
    · simp
    · exact absurd (touchedB_nsKey ht) (by simp [hns])
  · simp only [if_true]
    by_cases hb : b = "unknown"
    · simp [hb]
    · simp [hb]

/-- Claim C4: every bucket of the SlimCounts returned by `map_to_slim`
holds exactly the sum of the counts of the identifiers attributed to it
by the first-matching-namespace rule (`unknown` for the no-finer-mapping
marker, the mapped slim term otherwise); identifiers contained in no
namespace mapping contribute to no bucket, and a namespace absent from
the slim map never appears. -/
theorem map_to_slim_attribution (m : SlimMap) (s : SourceTerms) (ns b : String) :
    outVal (map_to_slim s m) ns b =
      if nsKey m ns then
        if b = "unknown" then some (attributedCount m s ns b)
        else if touchedB m s ns b then some (attributedCount m s ns b) else none
      else none :=
  mapToSlim_outVal m s ns b

/-- Claim C8: the configured skip-list of the three root identifiers is
never consulted — `map_to_slim` equals the identical function with the
skip-list removed, on every input. -/
theorem map_to_slim_skip_list_unused (source_terms : SourceTerms) (slim_map : SlimMap) :
    map_to_slim source_terms slim_map = map_to_slim_noskip source_terms slim_map := rfl

/-- Claim C9: for every namespace present in the SlimMap the returned
SlimCounts contains an `unknown` entry, whose value is the attributed
sum (zero when no occurrence is attributed to it). -/
theorem slim_counts_unknown_present (m : SlimMap) (s : SourceTerms) (ns : String)
    (h : nsKey m ns = true) :
    outVal (map_to_slim s m) ns "unknown" = some (attributedCount m s ns "unknown") := by
  rw [mapToSlim_outVal, h]
  simp

/-- Witness for claim C9 with an empty source-term set: the unknown
entry is present (at zero). -/
theorem slim_counts_unknown_present_witness :
    nsKey mEx9 "biological_process" = true ∧
    outVal (map_to_slim [] mEx9) "biological_process" "unknown" =
      some (attributedCount mEx9 [] "biological_process" "unknown") :=
  ⟨rfl, slim_counts_unknown_present mEx9 [] "biological_process" rfl⟩

/-- Claim C2 as stated is false for the slim-counts artifact: even
when a persisted copy exists, one pass of main still runs the slim
producer and overwrites the persisted value with a fresh one. -/
theorem cache_claim_counterexample :
    ¬ (∀ (s : ArtifactStore Nat Nat Nat Nat) (f1 f2 f3 f4 : Nat),
        (∀ v, s.fastaStats = some v →
          (mainCachePass f1 f2 f3 f4 s).2.ranGenerateFastaStats = false ∧
          (mainCachePass f1 f2 f3 f4 s).1.fastaStats = some v) ∧
        (∀ v, s.gffStats = some v →
          (mainCachePass f1 f2 f3 f4 s).2.ranGenerateGffStats = false ∧
          (mainCachePass f1 f2 f3 f4 s).1.gffStats = some v) ∧
        (∀ v, s.slimCounts = some v →
          (mainCachePass f1 f2 f3 f4 s).2.ranMapToSlim = false ∧
          (mainCachePass f1 f2 f3 f4 s).1.slimCounts = some v)) := by
  intro h
  have h2 := ((h ⟨some 0, some 0, some 0, some 0⟩ 1 1 1 1).2.2) 0 rfl
  exact absurd h2.1 (by decide)

/-- Claim C2 (amended): for the assembly-statistics, stored-features
and gene-model-statistics artifacts a persisted copy suppresses the
producer and is kept unchanged; the slim-counts producer runs on every
pass and its output overwrites the persisted slim counts. -/
theorem cache_policy {α β γ δ : Type} (s : ArtifactStore α β γ δ)
    (f1 : α) (f2 : β) (f3 : γ) (f4 : δ) :
    (∀ v, s.fastaStats = some v →
      (mainCachePass f1 f2 f3 f4 s).2.ranGenerateFastaStats = false ∧
      (mainCachePass f1 f2 f3 f4 s).1.fastaStats = some v) ∧
    (∀ v, s.storedFeatures = some v →
      (mainCachePass f1 f2 f3 f4 s).2.ranGffParse = false ∧
      (mainCachePass f1 f2 f3 f4 s).1.storedFeatures = some v) ∧
    (∀ v, s.gffStats = some v →
      (mainCachePass f1 f2 f3 f4 s).2.ranGenerateGffStats = false ∧
      (mainCachePass f1 f2 f3 f4 s).1.gffStats = some v) ∧
    ((mainCachePass f1 f2 f3 f4 s).2.ranMapToSlim = true ∧
     (mainCachePass f1 f2 f3 f4 s).1.slimCounts = some f4) := by
  rcases s with ⟨sf, sfe, sg, ssl⟩
  refine ⟨fun v hv => ?_, fun v hv => ?_, fun v hv => ?_, ?_⟩
  · simp only at hv
    exact ⟨by simp [mainCachePass, hv], by simp [mainCachePass, hv]⟩
  · simp only at hv
    exact ⟨by simp [mainCachePass, hv], by simp [mainCachePass, hv]⟩
  · simp only at hv
    exact ⟨by simp [mainCachePass, hv], by simp [mainCachePass, hv]⟩
  · exact ⟨rfl, rfl⟩

/-- Witness for claim C2 on a store where all four artifacts exist. -/
theorem cache_policy_witness :
    (mainCachePass 5 6 7 8 (⟨some 1, some 2, some 3, some 4⟩ : ArtifactStore Nat Nat Nat Nat)).1.fastaStats = some 1 ∧
    (mainCachePass 5 6 7 8 (⟨some 1, some 2, some 3, some 4⟩ : ArtifactStore Nat Nat Nat Nat)).1.storedFeatures = some 2 ∧
    (mainCachePass 5 6 7 8 (⟨some 1, some 2, some 3, some 4⟩ : ArtifactStore Nat Nat Nat Nat)).1.gffStats = some 3 ∧
    (mainCachePass 5 6 7 8 (⟨some 1, some 2, some 3, some 4⟩ : ArtifactStore Nat Nat Nat Nat)).2.ranGenerateFastaStats = false ∧
    (mainCachePass 5 6 7 8 (⟨some 1, some 2, some 3, some 4⟩ : ArtifactStore Nat Nat Nat Nat)).2.ranGffParse = false ∧
    (mainCachePass 5 6 7 8 (⟨some 1, some 2, some 3, some 4⟩ : ArtifactStore Nat Nat Nat Nat)).2.ranGenerateGffStats = false ∧
    (mainCachePass 5 6 7 8 (⟨some 1, some 2, some 3, some 4⟩ : ArtifactStore Nat Nat Nat Nat)).2.ranMapToSlim = true ∧
    (mainCachePass 5 6 7 8 (⟨some 1, some 2, some 3, some 4⟩ : ArtifactStore Nat Nat Nat Nat)).1.slimCounts = some 8 := by
  have h := cache_policy (⟨some 1, some 2, some 3, some 4⟩ : ArtifactStore Nat Nat Nat Nat) 5 6 7 8
  exact ⟨(h.1 1 rfl).2, (h.2.1 2 rfl).2, (h.2.2.1 3 rfl).2, (h.1 1 rfl).1, (h.2.1 2 rfl).1,
         (h.2.2.1 3 rfl).1, h.2.2.2.1, h.2.2.2.2⟩
